import Mathlib

/-!
Verification of the Mandelbrot escape-time kernel in
`src/cpp_guide_9fb8d0.cpp`.

The C++ code works with `std::complex<double>`; here complex points are
embedded as pairs of rationals and the test `std::abs(z) < 2.0` is embedded
as `normSq z < 4`, which is equivalent over exact arithmetic (the spec
itself blesses `re*re + im*im < 4.0` as an acceptable form of the
threshold test).
-/

/-- A point of the complex plane, `std::complex<double>` in the source,
embedded with exact rational coordinates. -/
structure ComplexQ where
  re : ℚ
  im : ℚ
deriving DecidableEq

/-- Complex addition. -/
def cAdd (a b : ComplexQ) : ComplexQ := ⟨a.re + b.re, a.im + b.im⟩

/-- Complex multiplication. -/
def cMul (a b : ComplexQ) : ComplexQ :=
  ⟨a.re * b.re - a.im * b.im, a.re * b.im + a.im * b.re⟩

/-- Squared magnitude; `std::abs(z) < 2.0` in the source is `normSq z < 4`
here. -/
def normSq (z : ComplexQ) : ℚ := z.re * z.re + z.im * z.im

/-- One pass of the loop body: `z = z * z + c` (line 37 of the source). -/
def mandelStep (c z : ComplexQ) : ComplexQ := cAdd (cMul z z) c

/-- The constant `WIDTH = 800` (line 13). -/
def WIDTH : ℕ := 800

/-- The constant `HEIGHT = 800` (line 14). -/
def HEIGHT : ℕ := 800

/-- The constant `RE_START = -2.0` (line 18). -/
def RE_START : ℚ := -2

/-- The constant `RE_END = 1.0` (line 19). -/
def RE_END : ℚ := 1

/-- The constant `IM_START = -1.5` (line 20). -/
def IM_START : ℚ := -3/2

/-- The constant `IM_END = 1.5` (line 21). -/
def IM_END : ℚ := 3/2

/-- The constant `MAX_ITERATIONS = 100` (line 25). -/
def MAX_ITERATIONS : ℕ := 100

/-- The `while` loop of `mandelbrot` (lines 36-39):
`while (std::abs(z) < 2.0 && iterations < maxIterations) { z = z*z + c; iterations++; }`.
State is `(z, iterations)`; `fuel` is an upper bound on the remaining
passes, initialised to `maxIterations` (the guard `iterations <
maxIterations` makes more passes impossible, so the fuel never runs out
before the guard fails). -/
def mandelbrotGo (c : ComplexQ) (maxIterations : ℕ) :
    ComplexQ → ℕ → ℕ → ℕ
  | _, iterations, 0 => iterations
  | z, iterations, fuel + 1 =>
    if normSq z < 4 ∧ iterations < maxIterations then
      mandelbrotGo c maxIterations (mandelStep c z) (iterations + 1) fuel
    else iterations

/-- `int mandelbrot(std::complex<double> c)` (lines 30-41), with the
iteration budget `MAX_ITERATIONS` generalised to a parameter as in the
spec's `iterate` operation: start from `z = 0`, `iterations = 0` and run
the loop. -/
def mandelbrot (c : ComplexQ) (maxIterations : ℕ) : ℕ :=
  mandelbrotGo c maxIterations ⟨0, 0⟩ 0 maxIterations

/-- Number of loop passes executed when the loop starts at state `z` with
`fuel` passes still allowed by the counter guard: the functional core of
the loop, used to reason about `mandelbrotGo`. -/
def escapeCount (c : ComplexQ) : ComplexQ → ℕ → ℕ
  | _, 0 => 0
  | z, n + 1 =>
    if normSq z < 4 then escapeCount c (mandelStep c z) n + 1 else 0

/-- The orbit of the recurrence: `zSeqFrom c z k` is `z` after `k`
applications of `z ← z*z + c`. -/
def zSeqFrom (c : ComplexQ) (z : ComplexQ) : ℕ → ComplexQ
  | 0 => z
  | k + 1 => zSeqFrom c (mandelStep c z) k

/-- The orbit started at `z = 0`, as in `mandelbrot`. -/
def zSeq (c : ComplexQ) (k : ℕ) : ComplexQ := zSeqFrom c ⟨0, 0⟩ k

/-- An RGB color; `sf::Color` as used by the source. -/
structure ColorRGB where
  r : ℕ
  g : ℕ
  b : ℕ
deriving DecidableEq

/-- The color-assignment branch of `main` (lines 72-84):
black (`sf::Color::Black = (0,0,0)`) when `iterations == MAX_ITERATIONS`,
otherwise `((iterations*5) % 255, (iterations*10) % 255, (iterations*15) % 255)`,
with the budget generalised to a parameter as in the spec's `colorize`. -/
def colorize (iterations maxIterations : ℕ) : ColorRGB :=
  if iterations = maxIterations then ⟨0, 0, 0⟩
  else ⟨iterations * 5 % 255, iterations * 10 % 255, iterations * 15 % 255⟩

/-- A viewport: the four plane bounds plus pixel dimensions (hard-coded
constants `RE_START` .. `IM_END`, `WIDTH`, `HEIGHT` in the source,
lifted to a record as in the spec's ViewportSpec). -/
structure ViewportSpec where
  reStart : ℚ
  reEnd : ℚ
  imStart : ℚ
  imEnd : ℚ
  width : ℕ
  height : ℕ
deriving DecidableEq

/-- The pixel-to-point map of `main` (lines 57-61):
`re = RE_START + (double)x / WIDTH * (RE_END - RE_START)` and likewise for
`im`, with the constants generalised to a `ViewportSpec` as in the spec's
`mapPixelToPoint`. -/
def mapPixelToPoint (x y : ℕ) (v : ViewportSpec) : ComplexQ :=
  ⟨v.reStart + (x : ℚ) / (v.width : ℚ) * (v.reEnd - v.reStart),
   v.imStart + (y : ℚ) / (v.height : ℚ) * (v.imEnd - v.imStart)⟩

/-- The viewport hard-coded in the source. -/
def stdViewport : ViewportSpec :=
  ⟨RE_START, RE_END, IM_START, IM_END, WIDTH, HEIGHT⟩

/-! ### Basic lemmas about the loop -/

/-- `mandelbrotGo` is the counter plus the number of further passes, as
long as the fuel covers the counter guard. -/
theorem mandelbrotGo_eq_escapeCount (c : ComplexQ) (maxIterations : ℕ) :
    ∀ (fuel i : ℕ) (z : ComplexQ), i + fuel = maxIterations →
      mandelbrotGo c maxIterations z i fuel = i + escapeCount c z fuel := by
  intro fuel
  induction fuel with
  | zero => intro i z _; simp [mandelbrotGo, escapeCount]
  | succ n ih =>
    intro i z h
    by_cases hz : normSq z < 4
    · have hi : i < maxIterations := by omega
      rw [mandelbrotGo, if_pos ⟨hz, hi⟩, escapeCount, if_pos hz,
        ih (i + 1) (mandelStep c z) (by omega)]
      omega
    · rw [mandelbrotGo, if_neg (by tauto), escapeCount, if_neg hz]
      omega

/-- `mandelbrot` in terms of the pass count. -/
theorem mandelbrot_eq_escapeCount (c : ComplexQ) (maxIterations : ℕ) :
    mandelbrot c maxIterations = escapeCount c ⟨0, 0⟩ maxIterations := by
  have h := mandelbrotGo_eq_escapeCount c maxIterations maxIterations 0 ⟨0, 0⟩ (by omega)
  simpa [mandelbrot] using h

/-- The pass count never exceeds the fuel. -/
theorem escapeCount_le (c : ComplexQ) : ∀ (n : ℕ) (z : ComplexQ),
    escapeCount c z n ≤ n := by
  intro n
  induction n with
  | zero => intro z; simp [escapeCount]
  | succ m ih =>
    intro z
    rw [escapeCount]
    split
    · exact Nat.succ_le_succ (ih _)
    · exact Nat.zero_le _

/-- If the pass count came up short of the fuel, the state reached at
exactly that pass fails the magnitude guard while every earlier state
satisfied it. -/
theorem escapeCount_lt_iff (c : ComplexQ) : ∀ (n : ℕ) (z : ComplexQ),
    (escapeCount c z n < n →
      ¬ normSq (zSeqFrom c z (escapeCount c z n)) < 4 ∧
      ∀ k < escapeCount c z n, normSq (zSeqFrom c z k) < 4) ∧
    (escapeCount c z n = n → ∀ k < n, normSq (zSeqFrom c z k) < 4) := by
  intro n
  induction n with
  | zero => intro z; constructor <;> intro h <;> omega
  | succ m ih =>
    intro z
    by_cases hz : normSq z < 4
    · have hrec := ih (mandelStep c z)
      constructor
      · intro hlt
        rw [escapeCount, if_pos hz] at hlt ⊢
        have hlt' : escapeCount c (mandelStep c z) m < m := by omega
        obtain ⟨h1, h2⟩ := hrec.1 hlt'
        refine ⟨by simpa [zSeqFrom] using h1, ?_⟩
        intro k hk
        match k with
        | 0 => simpa [zSeqFrom] using hz
        | j + 1 =>
          have := h2 j (by omega)
          simpa [zSeqFrom] using this
      · intro heq
        rw [escapeCount, if_pos hz] at heq
        have heq' : escapeCount c (mandelStep c z) m = m := by omega
        intro k hk
        match k with
        | 0 => simpa [zSeqFrom] using hz
        | j + 1 =>
          have := hrec.2 heq' j (by omega)
          simpa [zSeqFrom] using this
    · have h0 : escapeCount c z (m + 1) = 0 := by
        rw [escapeCount, if_neg hz]
      constructor
      · intro _
        rw [h0]
        exact ⟨hz, fun k hk => absurd hk (by omega)⟩
      · intro heq
        rw [h0] at heq
        omega

/-- One loop pass from `z = 0` lands on `c` (since `0*0 + c = c`). -/
theorem mandelStep_zero (c : ComplexQ) : mandelStep c ⟨0, 0⟩ = c := by
  simp [mandelStep, cMul, cAdd]

/-- Starting at the origin with `c = 0`, every pass keeps `z = 0`, so the
loop always runs out its counter guard. -/
theorem escapeCount_origin : ∀ n : ℕ, escapeCount ⟨0, 0⟩ ⟨0, 0⟩ n = n := by
  intro n
  induction n with
  | zero => rfl
  | succ m ih =>
    rw [escapeCount, if_pos (by norm_num [normSq]), mandelStep_zero, ih]

/-- Claim C5: for every `maxIterations ≥ 0`, the evaluator applied to the
origin `0+0i` returns exactly `maxIterations` (the origin never escapes). -/
theorem mandelbrot_origin (maxIterations : ℕ) :
    mandelbrot ⟨0, 0⟩ maxIterations = maxIterations := by
  rw [mandelbrot_eq_escapeCount]
  exact escapeCount_origin maxIterations

/-- Claim C2 (amended): for every `c` with `|c| > 2` (that is,
`normSq c > 4`) and every budget `N ≥ 2`, the evaluator returns a value
strictly less than `N`. (As stated with `N ≥ 1` the claim fails at
`N = 1`: the loop body always runs once from `z = 0`, so the result is
`1 = N`.) -/
theorem mandelbrot_escapes (c : ComplexQ) (N : ℕ)
    (hc : 4 < normSq c) (hN : 2 ≤ N) : mandelbrot c N < N := by
  obtain ⟨m, rfl⟩ : ∃ m, N = m + 2 := ⟨N - 2, by omega⟩
  rw [mandelbrot_eq_escapeCount, escapeCount, if_pos (by norm_num [normSq]),
    mandelStep_zero, escapeCount, if_neg (not_lt.2 (le_of_lt hc))]
  omega

/-- Claim C2, counterexample to the claim as stated: at `c = 3 + 0i`
(where `|c| = 3 > 2`) and `N = 1 ≥ 1`, the evaluator returns `1`, which is
not strictly less than `N`. -/
theorem mandelbrot_escapes_budget_one_counterexample :
    4 < normSq ⟨3, 0⟩ ∧ 1 ≤ (1 : ℕ) ∧ ¬ mandelbrot ⟨3, 0⟩ 1 < 1 := by
  refine ⟨by norm_num [normSq], le_refl 1, ?_⟩
  have h : mandelbrot ⟨3, 0⟩ 1 = 1 := by
    norm_num [mandelbrot, mandelbrotGo, mandelStep, cMul, cAdd, normSq]
  omega

/-- Claim C2, witness: at `c = 3 + 0i` and `N = 2` the amended claim
applies and the evaluator escapes within the budget. -/
theorem mandelbrot_escapes_witness : mandelbrot ⟨3, 0⟩ 2 < 2 :=
  mandelbrot_escapes ⟨3, 0⟩ 2 (by norm_num [normSq]) (by norm_num)

/-- Claim C3 (amended): the result lies in `[0, maxIterations]`; a result
strictly below the budget means the orbit left the open disk of radius 2
(`normSq ≥ 4`, the loop guard `|z| < 2` failed) at exactly that step while
every earlier state satisfied the guard; a result equal to the budget
means the guard held at every step checked within the budget. (As stated
— with `|z|` strictly *exceeding* 2 at the escape step — the claim fails
at `c = 2 + 0i`, where the loop exits with `|z| = 2` exactly.) -/
theorem mandelbrot_postcondition (c : ComplexQ) (maxIterations : ℕ) :
    mandelbrot c maxIterations ≤ maxIterations ∧
    (mandelbrot c maxIterations < maxIterations →
      4 ≤ normSq (zSeq c (mandelbrot c maxIterations)) ∧
      ∀ k < mandelbrot c maxIterations, normSq (zSeq c k) < 4) ∧
    (mandelbrot c maxIterations = maxIterations →
      ∀ k < maxIterations, normSq (zSeq c k) < 4) := by
  have he := mandelbrot_eq_escapeCount c maxIterations
  have hiff := escapeCount_lt_iff c maxIterations ⟨0, 0⟩
  refine ⟨?_, ?_, ?_⟩
  · rw [he]
    exact escapeCount_le c maxIterations ⟨0, 0⟩
  · intro hlt
    rw [he] at hlt ⊢
    obtain ⟨h1, h2⟩ := hiff.1 hlt
    exact ⟨le_of_not_lt h1, h2⟩
  · intro heq
    rw [he] at heq
    exact hiff.2 heq

/-- Claim C3, counterexample to the claim as stated: at `c = 2 + 0i` with
budget 2 the evaluator returns `1 < 2`, yet at step 1 the orbit value is
`2 + 0i` with `|z| = 2` exactly — the magnitude did not *exceed* 2. -/
theorem mandelbrot_postcondition_counterexample :
    mandelbrot ⟨2, 0⟩ 2 < 2 ∧
    ¬ 4 < normSq (zSeq ⟨2, 0⟩ (mandelbrot ⟨2, 0⟩ 2)) := by
  have h : mandelbrot ⟨2, 0⟩ 2 = 1 := by
    norm_num [mandelbrot, mandelbrotGo, mandelStep, cMul, cAdd, normSq]
  rw [h]
  exact ⟨by omega, by norm_num [zSeq, zSeqFrom, mandelStep, cMul, cAdd, normSq]⟩

/-- Claim C3, witness: at `c = 2 + 0i` with budget 2 the result is within
the budget and the escape-step state has `normSq ≥ 4`. -/
theorem mandelbrot_postcondition_witness :
    mandelbrot ⟨2, 0⟩ 2 ≤ 2 ∧ 4 ≤ normSq (zSeq ⟨2, 0⟩ (mandelbrot ⟨2, 0⟩ 2)) :=
  ⟨(mandelbrot_postcondition ⟨2, 0⟩ 2).1,
   ((mandelbrot_postcondition ⟨2, 0⟩ 2).2.1
     (by norm_num [mandelbrot, mandelbrotGo, mandelStep, cMul, cAdd, normSq])).1⟩

/-- Claim C1 (amended): for every `iterationResult` strictly below
`maxIterations`, the gradient color has channels
`(iterationResult*5) % 255`, `(iterationResult*10) % 255`,
`(iterationResult*15) % 255` — the source reduces modulo 255, not
modulo 256 as the claim states. -/
theorem colorize_gradient_mod255 (iterationResult maxIterations : ℕ)
    (h : iterationResult < maxIterations) :
    colorize iterationResult maxIterations =
      ⟨iterationResult * 5 % 255, iterationResult * 10 % 255,
       iterationResult * 15 % 255⟩ := by
  rw [colorize, if_neg (Nat.ne_of_lt h)]

/-- Claim C1, counterexample to the claim as stated: at
`iterationResult = 17 < 100 = maxIterations`, the blue channel is
`(17*15) % 255 = 0`, not `(17*15) % 256 = 255`. -/
theorem colorize_gradient_mod256_counterexample :
    17 < 100 ∧
    colorize 17 100 ≠ ⟨17 * 5 % 256, 17 * 10 % 256, 17 * 15 % 256⟩ := by
  decide

/-- Claim C1, witness: at `iterationResult = 3`, `maxIterations = 10` the
amended gradient formula applies. -/
theorem colorize_gradient_mod255_witness :
    colorize 3 10 = ⟨3 * 5 % 255, 3 * 10 % 255, 3 * 15 % 255⟩ :=
  colorize_gradient_mod255 3 10 (by norm_num)

/-- Claim C4: the kernel contains no precondition validation at all.
With the invalid budget `maxIterations = 0` (non-positive) the evaluator
silently returns the IterationResult `0` instead of signalling a
precondition violation, and `colorize` likewise accepts an
`iterationResult` larger than `maxIterations` and returns an ordinary
color — the fail-fast policy the claim describes is absent from the
source (its §4.1 note admits the source does not guard). -/
theorem mandelbrot_unguarded :
    mandelbrot ⟨3, 3⟩ 0 = 0 ∧ colorize 5 0 = ⟨25, 50, 75⟩ :=
  ⟨rfl, by decide⟩

/-- Claim C6: for in-range pixel indices, `mapPixelToPoint` computes the
linear interpolation `re = reStart + (x / width) * (reEnd - reStart)`,
`im = imStart + (y / height) * (imEnd - imStart)`, and pixel `(0, 0)`
maps exactly to `(reStart, imStart)`. -/
theorem mapPixelToPoint_formula (x y : ℕ) (v : ViewportSpec)
    (hx : x < v.width) (hy : y < v.height) :
    (mapPixelToPoint x y v).re =
      v.reStart + (x : ℚ) / (v.width : ℚ) * (v.reEnd - v.reStart) ∧
    (mapPixelToPoint x y v).im =
      v.imStart + (y : ℚ) / (v.height : ℚ) * (v.imEnd - v.imStart) ∧
    mapPixelToPoint 0 0 v = ⟨v.reStart, v.imStart⟩ := by
  refine ⟨rfl, rfl, ?_⟩
  simp [mapPixelToPoint]

/-- Claim C6, witness: pixel `(3, 5)` of the source's hard-coded viewport
is in range and the interpolation formula and the exact `(0, 0)` corner
hold there. -/
theorem mapPixelToPoint_formula_witness :
    (mapPixelToPoint 3 5 stdViewport).re =
      stdViewport.reStart +
        (3 : ℚ) / (stdViewport.width : ℚ) *
          (stdViewport.reEnd - stdViewport.reStart) ∧
    (mapPixelToPoint 3 5 stdViewport).im =
      stdViewport.imStart +
        (5 : ℚ) / (stdViewport.height : ℚ) *
          (stdViewport.imEnd - stdViewport.imStart) ∧
    mapPixelToPoint 0 0 stdViewport = ⟨stdViewport.reStart, stdViewport.imStart⟩ :=
  mapPixelToPoint_formula 3 5 stdViewport
    (by norm_num [stdViewport, WIDTH]) (by norm_num [stdViewport, HEIGHT])

/-- Claim C7: for every value of `maxIterations`,
`colorize maxIterations maxIterations` is the designated in-set color,
black `(0, 0, 0)`. -/
theorem colorize_at_budget_black (maxIterations : ℕ) :
    colorize maxIterations maxIterations = ⟨0, 0, 0⟩ := by
  simp [colorize]

/-- Claim C8: for every non-negative `iterationResult ≤ maxIterations`,
each channel of the color returned by `colorize` lies within `[0, 255]`
(channels are naturals, so the lower bound is implicit). -/
theorem colorize_channels_le (iterationResult maxIterations : ℕ)
    (h : iterationResult ≤ maxIterations) :
    (colorize iterationResult maxIterations).r ≤ 255 ∧
    (colorize iterationResult maxIterations).g ≤ 255 ∧
    (colorize iterationResult maxIterations).b ≤ 255 := by
  rw [colorize]
  split
  · exact ⟨Nat.zero_le _, Nat.zero_le _, Nat.zero_le _⟩
  · exact ⟨le_of_lt (Nat.mod_lt _ (by norm_num)),
      le_of_lt (Nat.mod_lt _ (by norm_num)),
      le_of_lt (Nat.mod_lt _ (by norm_num))⟩

/-- Claim C8, witness: at `iterationResult = 7 ≤ 10 = maxIterations` all
three channels are within range. -/
theorem colorize_channels_le_witness :
    (colorize 7 10).r ≤ 255 ∧ (colorize 7 10).g ≤ 255 ∧
    (colorize 7 10).b ≤ 255 :=
  colorize_channels_le 7 10 (by norm_num)

/-- Claim C9: with the source's budget `MAX_ITERATIONS = 100`, the escaped
count `51 < 100` is colored `(51*5) % 255 = 0`, `(51*10) % 255 = 0`,
`(51*15) % 255 = 0` — black, identical to the designated in-set color, so
an escaped point renders indistinguishably from an in-set point. -/
theorem colorize_escaped_black_collision :
    51 < MAX_ITERATIONS ∧ colorize 51 MAX_ITERATIONS = ⟨0, 0, 0⟩ ∧
    colorize MAX_ITERATIONS MAX_ITERATIONS = ⟨0, 0, 0⟩ := by
  decide

/-- Claim C10: for every point `c` and every `maxIterations ≥ 0` the loop
terminates — it is total by construction (structural recursion on the
fuel, which the counter guard `iterations < maxIterations` keeps from
running out), and since the counter starts at 0 and the number of passes
equals the result, the result never exceeds `maxIterations`
(unconditionally, budget 0 included); moreover the counter grows by
exactly one on each pass: whenever a state `(z, i)` satisfies the guard,
one unfolding takes it to `(z*z + c, i + 1)`. -/
theorem mandelbrot_loop_bounded (c : ComplexQ) (maxIterations : ℕ) :
    mandelbrot c maxIterations ≤ maxIterations ∧
    ∀ (z : ComplexQ) (i fuel : ℕ), normSq z < 4 → i < maxIterations →
      mandelbrotGo c maxIterations z i (fuel + 1) =
        mandelbrotGo c maxIterations (mandelStep c z) (i + 1) fuel := by
  constructor
  · rw [mandelbrot_eq_escapeCount]
    exact escapeCount_le c maxIterations ⟨0, 0⟩
  · intro z i fuel hz hi
    rw [mandelbrotGo, if_pos ⟨hz, hi⟩]

/-- Claim C10, witness: at `c = 1 + 1i` with budget 5 the result is at
most 5 and the first pass advances the counter from 0 to 1. -/
theorem mandelbrot_loop_bounded_witness :
    mandelbrot ⟨1, 1⟩ 5 ≤ 5 ∧
    mandelbrotGo ⟨1, 1⟩ 5 ⟨0, 0⟩ 0 4 =
      mandelbrotGo ⟨1, 1⟩ 5 (mandelStep ⟨1, 1⟩ ⟨0, 0⟩) 1 3 :=
  ⟨(mandelbrot_loop_bounded ⟨1, 1⟩ 5).1,
   (mandelbrot_loop_bounded ⟨1, 1⟩ 5).2 ⟨0, 0⟩ 0 3
     (by norm_num [normSq]) (by norm_num)⟩
